import Mathlib

/-!
Verification of the booking/scheduling core of the `sched` repository.

The embedding models instants as `Int` milliseconds since the Unix epoch,
interpreted on the business's civil calendar (the code performs no timezone
conversion; `date-fns` calendar operations are modelled as arithmetic on a
single linear timeline, with day 0 being a Thursday, as for the epoch).

`date-fns` primitives used by the code:
  - `isBefore a b`   is `a < b`
  - `isAfter a b`    is `a > b`
  - `addMinutes t m` is `t + m * 60000`
  - `setMinutes (setHours t h) m` keeps `t`'s civil day and its
    seconds-within-the-minute and sets the hour and minute fields; on the
    linear timeline this is
    `(t fdiv msPerDay) * msPerDay + h * msPerHour + m * msPerMinute + t mod msPerMinute`.
  - `getDay t` is the weekday index (0 = Sunday), `(t fdiv msPerDay + 4) mod 7`.
-/

def msPerMinute : Int := 60000

def msPerHour : Int := 3600000

def msPerDay : Int := 86400000

/-- The civil day index of an instant (`/` on `Int` is floor division for a
positive divisor, matching calendar semantics). -/
def dayIndex (t : Int) : Int := t / msPerDay

/-- Model of `setMinutes(setHours(t, h), m)` from date-fns: keep the civil
day and the seconds/milliseconds within the minute, set hour and minute. -/
def setTimeOfDay (t : Int) (h m : Nat) : Int :=
  dayIndex t * msPerDay + (h : Int) * msPerHour + (m : Int) * msPerMinute + t % msPerMinute

/-- Model of JavaScript `getDay` (0 = Sunday ... 6 = Saturday); the Unix
epoch day is a Thursday. -/
def getDay (t : Int) : Nat := ((dayIndex t + 4) % 7).toNat

/-- `src/lib/booking/slots.ts` `getDayOfWeekName`: the `days` array. -/
def dayNamesList : List String :=
  ["sunday", "monday", "tuesday", "wednesday", "thursday", "friday", "saturday"]

/-- `src/lib/booking/slots.ts` `getDayOfWeekName`. -/
def getDayOfWeekName (t : Int) : String := dayNamesList.getD (getDay t) ""

/-- Appointment status values (`AppointmentStatus` enum / the `valid_status`
CHECK constraint). -/
inductive AppointmentStatus where
  | pending
  | confirmed
  | cancelled
  | completed
  | no_show
deriving DecidableEq, Repr

/-- A parsed "HH:mm" time-of-day (`parseTimeString` output). -/
structure TimeOfDay where
  hour : Nat
  minute : Nat
deriving DecidableEq, Repr

/-- A `{start, end}` time-of-day range ("HH:mm" strings in the source). -/
structure TimeRange where
  start : TimeOfDay
  «end» : TimeOfDay
deriving DecidableEq, Repr

/-- The fields of the `Business` entity consumed by `generateAvailableSlots`
(`src/lib/booking/slots.ts`); identity and display fields are irrelevant to
slot generation and omitted. -/
structure Business where
  available_days : List String
  available_hours : TimeRange
  break_times : List TimeRange
  slot_duration_minutes : Int
  min_advance_booking_minutes : Int
  max_advance_booking_days : Int
deriving DecidableEq, Repr

/-- The fields of the `Appointment` entity consumed by slot generation. -/
structure Appointment where
  start_time : Int
  end_time : Int
  status : AppointmentStatus
deriving DecidableEq, Repr

/-- The fields of the `BlockedSlot` entity consumed by slot generation. -/
structure BlockedSlot where
  start_time : Int
  end_time : Int
deriving DecidableEq, Repr

/-- `AvailableSlot`: `{start, end}` output interval. -/
structure AvailableSlot where
  start : Int
  «end» : Int
deriving DecidableEq, Repr

/-- `src/lib/booking/slots.ts` `hasTimeOverlap`:
`isBefore(start1, end2) && isBefore(start2, end1)`. -/
def hasTimeOverlap (start1 end1 start2 end2 : Int) : Bool :=
  decide (start1 < end2) && decide (start2 < end1)

/-- `src/lib/booking/slots.ts` `isSlotDuringBreakTime`: each break's
boundaries are anchored to `slotStart`'s day. An empty list short-circuits
to `false` in the source, which coincides with `List.any` on `[]`. -/
def isSlotDuringBreakTime (slotStart slotEnd : Int) (breakTimes : List TimeRange) : Bool :=
  breakTimes.any fun breakTime =>
    hasTimeOverlap slotStart slotEnd
      (setTimeOfDay slotStart breakTime.start.hour breakTime.start.minute)
      (setTimeOfDay slotStart breakTime.«end».hour breakTime.«end».minute)

/-- The status guard `['pending', 'confirmed'].includes(apt.status)` from
`hasConflictWithAppointments`. -/
def isActiveStatus (s : AppointmentStatus) : Bool :=
  decide (s = AppointmentStatus.pending) || decide (s = AppointmentStatus.confirmed)

/-- `src/lib/booking/slots.ts` `hasConflictWithAppointments`: the defensive
status re-check returns `false` for non-active appointments before the
overlap test. -/
def hasConflictWithAppointments (slotStart slotEnd : Int) (appointments : List Appointment) : Bool :=
  appointments.any fun apt =>
    if isActiveStatus apt.status then
      hasTimeOverlap slotStart slotEnd apt.start_time apt.end_time
    else
      false

/-- `src/lib/booking/slots.ts` `hasConflictWithBlockedSlots`. -/
def hasConflictWithBlockedSlots (slotStart slotEnd : Int) (blockedSlots : List BlockedSlot) : Bool :=
  blockedSlots.any fun blocked =>
    hasTimeOverlap slotStart slotEnd blocked.start_time blocked.end_time

/-- The `passesAllFilters` conjunction inside the `while` loop of
`generateAvailableSlots`, in source order. -/
def passesAllFilters (business : Business) (existingAppointments : List Appointment)
    (blockedSlots : List BlockedSlot) (now minBookingTime maxBookingTime : Int)
    (currentSlotStart currentSlotEnd : Int) : Bool :=
  !(decide (currentSlotEnd < now)) &&
  !(decide (currentSlotStart < minBookingTime)) &&
  !(decide (currentSlotStart > maxBookingTime)) &&
  !(isSlotDuringBreakTime currentSlotStart currentSlotEnd business.break_times) &&
  !(hasConflictWithAppointments currentSlotStart currentSlotEnd existingAppointments) &&
  !(hasConflictWithBlockedSlots currentSlotStart currentSlotEnd blockedSlots)

/-- The `while (isBefore(currentSlotStart, dayEndTime))` loop of
`generateAvailableSlots`, indexed by fuel. Each iteration: if the slot's
end fits within business hours (`end < dayEnd || end == dayEnd`) and the
slot passes all filters, it is appended; the cursor then advances by
`slotDuration` minutes. The fuel bound chosen in `generateAvailableSlots`
is large enough that, for a positive slot duration, the result equals the
loop's true limit (proved below). -/
def slotLoop (business : Business) (existingAppointments : List Appointment)
    (blockedSlots : List BlockedSlot) (now dayEndTime minBookingTime maxBookingTime : Int) :
    Nat → Int → List AvailableSlot
  | 0, _ => []
  | fuel + 1, currentSlotStart =>
    if currentSlotStart < dayEndTime then
      let currentSlotEnd := currentSlotStart + business.slot_duration_minutes * msPerMinute
      let rest := slotLoop business existingAppointments blockedSlots now dayEndTime
        minBookingTime maxBookingTime fuel
        (currentSlotStart + business.slot_duration_minutes * msPerMinute)
      if currentSlotEnd < dayEndTime ∨ currentSlotEnd = dayEndTime then
        if passesAllFilters business existingAppointments blockedSlots now
            minBookingTime maxBookingTime currentSlotStart currentSlotEnd then
          { start := currentSlotStart, «end» := currentSlotEnd } :: rest
        else rest
      else rest
    else []

/-- The initial `currentSlotStart` binding of `generateAvailableSlots`:
`setMinutes(setHours(date, startHour), startMinute)`. -/
def scheduleDayStart (business : Business) (date : Int) : Int :=
  setTimeOfDay date business.available_hours.start.hour business.available_hours.start.minute

/-- The `dayEndTime` binding of `generateAvailableSlots`. -/
def scheduleDayEnd (business : Business) (date : Int) : Int :=
  setTimeOfDay date business.available_hours.«end».hour business.available_hours.«end».minute

/-- The `minBookingTime` binding of `generateAvailableSlots`:
`now + min_advance_booking_minutes * 60 * 1000`. -/
def scheduleMinBooking (business : Business) (now : Int) : Int :=
  now + business.min_advance_booking_minutes * msPerMinute

/-- The `maxBookingTime` binding of `generateAvailableSlots`:
`now + max_advance_booking_days * 24 * 60 * 60 * 1000`. -/
def scheduleMaxBooking (business : Business) (now : Int) : Int :=
  now + business.max_advance_booking_days * msPerDay

/-- `src/lib/booking/slots.ts` `generateAvailableSlots`. The source's
`while` loop fails to terminate exactly when the slot duration is
non-positive and the day window is non-empty; this embedding returns
`none` in that case and `some` of the loop's output otherwise (the fuel
bound exceeds the loop's iteration count whenever the duration is
positive, see the fuel-independence theorem below). -/
def generateAvailableSlots (business : Business) (date : Int)
    (existingAppointments : List Appointment) (blockedSlots : List BlockedSlot)
    (now : Int) : Option (List AvailableSlot) :=
  if business.available_days.contains (getDayOfWeekName date) then
    if business.slot_duration_minutes ≤ 0 ∧ scheduleDayStart business date < scheduleDayEnd business date then
      none
    else
      some (slotLoop business existingAppointments blockedSlots now
        (scheduleDayEnd business date) (scheduleMinBooking business now)
        (scheduleMaxBooking business now)
        ((scheduleDayEnd business date - scheduleDayStart business date).toNat + 1)
        (scheduleDayStart business date))
  else
    some []

/-!
SQL layer: the Booking Conflict Guard
(`check_appointment_conflict` from
`supabase/migrations/20251125125028_create_booking_system.sql` and
`prevent_appointment_conflicts` from
`supabase/migrations/20251126_fix_clerk_user_id_types.sql`).
Row ids are modelled as `Nat`, with `0` standing for the all-zero uuid used
in the `COALESCE` default.
-/

/-- An `appointments` row as consulted by the conflict guard. -/
structure DbAppointment where
  id : Nat
  business_id : Nat
  start_time : Int
  end_time : Int
  status : AppointmentStatus
deriving DecidableEq, Repr

/-- A `blocked_slots` row as consulted by the conflict guard. -/
structure DbBlockedSlot where
  business_id : Nat
  start_time : Int
  end_time : Int
deriving DecidableEq, Repr

/-- The `status NOT IN ('cancelled', 'no_show')` predicate of the SQL
conflict queries. -/
def sqlStatusParticipates (s : AppointmentStatus) : Bool :=
  !(decide (s = AppointmentStatus.cancelled) || decide (s = AppointmentStatus.no_show))

/-- `public.check_appointment_conflict` (migration
`20251125125028_create_booking_system.sql`): true iff the proposed
interval overlaps an existing appointment whose status is not
cancelled/no_show (excluding `p_exclude_appointment_id`, defaulted to the
zero uuid), or any blocked slot of the business. -/
def check_appointment_conflict (p_business_id : Nat) (p_start_time p_end_time : Int)
    (p_exclude_appointment_id : Option Nat)
    (appointments : List DbAppointment) (blocked_slots : List DbBlockedSlot) : Bool :=
  (appointments.any fun a =>
    decide (a.business_id = p_business_id) &&
    sqlStatusParticipates a.status &&
    decide (a.id ≠ p_exclude_appointment_id.getD 0) &&
    decide (a.start_time < p_end_time) && decide (a.end_time > p_start_time)) ||
  (blocked_slots.any fun b =>
    decide (b.business_id = p_business_id) &&
    decide (b.start_time < p_end_time) && decide (b.end_time > p_start_time))

/-- Outcome of the `prevent_appointment_conflicts` trigger: `allowed`
(returns NEW), or one of the two raised exceptions (`P0001` appointment
conflict, `P0002` blocked slot). -/
inductive ConflictOutcome where
  | allowed
  | appointmentConflict
  | blockedConflict
deriving DecidableEq, Repr

/-- `public.prevent_appointment_conflicts` (migration
`20251126_fix_clerk_user_id_types.sql`): skips validation entirely when
NEW.status is cancelled/no_show; otherwise rejects on overlap with an
existing appointment whose status is not cancelled/no_show (excluding the
row itself), then on overlap with a blocked slot. -/
def prevent_appointment_conflicts (new_id : Option Nat) (new_business_id : Nat)
    (new_start_time new_end_time : Int) (new_status : AppointmentStatus)
    (appointments : List DbAppointment) (blocked_slots : List DbBlockedSlot) :
    ConflictOutcome :=
  if new_status = AppointmentStatus.cancelled ∨ new_status = AppointmentStatus.no_show then
    ConflictOutcome.allowed
  else if appointments.any fun a =>
      decide (a.business_id = new_business_id) &&
      sqlStatusParticipates a.status &&
      decide (a.id ≠ new_id.getD 0) &&
      decide (a.start_time < new_end_time) && decide (a.end_time > new_start_time) then
    ConflictOutcome.appointmentConflict
  else if blocked_slots.any fun b =>
      decide (b.business_id = new_business_id) &&
      decide (b.start_time < new_end_time) && decide (b.end_time > new_start_time) then
    ConflictOutcome.blockedConflict
  else
    ConflictOutcome.allowed

/-!
SQL layer: cancellation-timestamp maintenance.
The `set_cancelled_at` trigger function (migration
`20251126_fix_clerk_user_id_types.sql`, trigger
`BEFORE INSERT OR UPDATE OF status`) together with the table CHECK
constraint `cancelled_at_only_when_cancelled` (migration
`20251125125028_create_booking_system.sql`). Only the two fields involved
are modelled. On INSERT, `OLD` is NULL, so `OLD.status = 'cancelled'`
evaluates to NULL and the clearing branch is not taken; this is modelled by
`old_status = none`.
-/

/-- The `status`/`cancelled_at` projection of an `appointments` row. -/
structure ApptRow where
  status : AppointmentStatus
  cancelled_at : Option Int
deriving DecidableEq, Repr

/-- `public.set_cancelled_at`: sets `cancelled_at := now()` when the new
status is cancelled and no timestamp is present; clears it when the status
moves away from cancelled. -/
def set_cancelled_at (now : Int) (old_status : Option AppointmentStatus) (new : ApptRow) :
    ApptRow :=
  let n1 :=
    if new.status = AppointmentStatus.cancelled ∧ new.cancelled_at = none then
      { new with cancelled_at := some now }
    else new
  if n1.status ≠ AppointmentStatus.cancelled ∧ old_status = some AppointmentStatus.cancelled then
    { n1 with cancelled_at := none }
  else n1

/-- The CHECK constraint `cancelled_at_only_when_cancelled`. -/
def cancelled_at_only_when_cancelled (r : ApptRow) : Bool :=
  (decide (r.status = AppointmentStatus.cancelled) && decide (r.cancelled_at ≠ none)) ||
  (decide (r.status ≠ AppointmentStatus.cancelled) && decide (r.cancelled_at = none))

/-- An INSERT of a proposed row at time `now`: the BEFORE trigger runs with
`OLD` null, then the CHECK constraint either admits the row or rejects the
statement (no row is created). -/
def insertAppointment (proposed : ApptRow) (now : Int) : Option ApptRow :=
  let n := set_cancelled_at now none proposed
  if cancelled_at_only_when_cancelled n then some n else none

/-- An UPDATE of the current row: `newStatus`/`newCancelledAt` are the SET
assignments (absent means the column is untouched). The trigger is declared
`UPDATE OF status`, so it fires exactly when the status column is assigned.
A CHECK violation aborts the statement, leaving the row unchanged. -/
def updateAppointment (cur : ApptRow) (newStatus : Option AppointmentStatus)
    (newCancelledAt : Option (Option Int)) (now : Int) : ApptRow :=
  let proposed : ApptRow :=
    { status := newStatus.getD cur.status, cancelled_at := newCancelledAt.getD cur.cancelled_at }
  let afterTrigger :=
    if newStatus.isSome then set_cancelled_at now (some cur.status) proposed else proposed
  if cancelled_at_only_when_cancelled afterTrigger then afterTrigger else cur

/-- A sequence of UPDATE statements applied to a row. -/
def runUpdates (r : ApptRow)
    (ops : List (Option AppointmentStatus × Option (Option Int) × Int)) : ApptRow :=
  ops.foldl (fun cur op => updateAppointment cur op.1 op.2.1 op.2.2) r

/-!
Input validation: the temporal/duration refinements of
`createAppointmentSchema` (`src/lib/booking/validation.ts`), applied to
`start_time`, `end_time` (epoch milliseconds), `duration_minutes`, with
`Date.now()` equal to `now`. The schema additionally validates fields
(uuid, email, name, phone, notes, status) that do not involve these
values; those independent checks are omitted from this projection.
`Math.round(x)` is `fdiv (2x + 1) 2` scaled: for an integer millisecond
difference `d`, `Math.round(d / 60000) = (d + 30000) / 60000` in floor
division.
-/

/-- The three `.refine` steps of `createAppointmentSchema` plus the
`duration_minutes` bounds (`.int().min(1).max(1440)`):
end after start, duration within 1 minute of the actual difference, and
start no earlier than 60 seconds before now. -/
def createAppointmentSchemaTiming (start_time end_time duration_minutes now : Int) : Bool :=
  decide (1 ≤ duration_minutes) && decide (duration_minutes ≤ 1440) &&
  decide (start_time < end_time) &&
  decide (((end_time - start_time + 30000) / 60000 - duration_minutes).natAbs ≤ 1) &&
  decide (start_time ≥ now - 60000)

/-!
Concrete sample inputs used by witnesses and the concrete-scenario claim.
Day 4 of the epoch (1970-01-05) is a Monday; `mondayDate` is its midnight,
`mondayNow` is 08:00 that day.
-/

/-- Midnight of a Monday (epoch day 4). -/
def mondayDate : Int := 345600000

/-- 08:00 on `mondayDate`. -/
def mondayNow : Int := 374400000

/-- The concrete-scenario business: Mon-Fri 09:00-17:00, 60-minute slots,
no breaks, no minimum advance, 90-day maximum advance. -/
def mondayBusiness : Business :=
  { available_days := ["monday", "tuesday", "wednesday", "thursday", "friday"]
    available_hours := { start := { hour := 9, minute := 0 }, «end» := { hour := 17, minute := 0 } }
    break_times := []
    slot_duration_minutes := 60
    min_advance_booking_minutes := 0
    max_advance_booking_days := 90 }

/-- Variant with a 12:00-13:00 lunch break. -/
def breakBusiness : Business :=
  { mondayBusiness with
      break_times := [{ start := { hour := 12, minute := 0 }, «end» := { hour := 13, minute := 0 } }] }

/-- A confirmed appointment 10:00-11:00 on `mondayDate`. -/
def sampleAppointments : List Appointment :=
  [{ start_time := 381600000, end_time := 385200000, status := AppointmentStatus.confirmed }]

/-- A blocked slot 14:00-15:00 on `mondayDate`. -/
def sampleBlockedSlots : List BlockedSlot :=
  [{ start_time := 396000000, end_time := 399600000 }]

/-- A malformed schedule: opening hours 17:00-09:00 (start after end). -/
def malformedBusiness : Business :=
  { mondayBusiness with
      available_hours := { start := { hour := 17, minute := 0 }, «end» := { hour := 9, minute := 0 } } }

/-- A malformed schedule: zero slot duration. -/
def zeroDurationBusiness : Business :=
  { mondayBusiness with slot_duration_minutes := 0 }

/-!
Supporting lemmas.
-/

/-- `List.any` is insensitive to dropping elements on which the predicate
is false anyway (specialised to the SQL status participation filter). -/
theorem sqlAny_filter (f : DbAppointment → Bool) (l : List DbAppointment)
    (hf : ∀ a, sqlStatusParticipates a.status = false → f a = false) :
    (l.filter fun a => sqlStatusParticipates a.status).any f = l.any f := by
  induction l with
  | nil => rfl
  | cons a l ih =>
    by_cases h : sqlStatusParticipates a.status = true
    · simp [List.filter_cons, h, List.any_cons, ih]
    · have hfa := hf a (by simpa using h)
      simp [List.filter_cons, h, List.any_cons, ih, hfa]

/-!
Claim theorems.
-/

/-- Claim C4: the shared overlap predicate `hasTimeOverlap` on half-open
intervals `[a1,a2)` and `[b1,b2)` returns true iff `a1 < b2` and `b1 < a2`;
in particular it returns false on every back-to-back pair (`a2 = b1`). -/
theorem hasTimeOverlap_characterization :
    (∀ a1 a2 b1 b2 : Int, hasTimeOverlap a1 a2 b1 b2 = true ↔ (a1 < b2 ∧ b1 < a2))
    ∧ (∀ a1 a2 b2 : Int, hasTimeOverlap a1 a2 a2 b2 = false) := by
  constructor
  · intro a1 a2 b1 b2
    simp [hasTimeOverlap]
  · intro a1 a2 b2
    simp [hasTimeOverlap]

/-- Claim C1, counterexample: an existing appointment with status
`completed` overlapping the proposed interval makes
`check_appointment_conflict` report a conflict, and makes the
`prevent_appointment_conflicts` trigger reject the insert: the SQL guard
only treats `cancelled` and `no_show` as inert, not `completed`. -/
theorem conflict_guard_completed_participates :
    check_appointment_conflict 1 150 250 none
      [{ id := 2, business_id := 1, start_time := 100, end_time := 200,
         status := AppointmentStatus.completed }] [] = true
    ∧ prevent_appointment_conflicts (some 3) 1 150 250 AppointmentStatus.pending
      [{ id := 2, business_id := 1, start_time := 100, end_time := 200,
         status := AppointmentStatus.completed }] [] = ConflictOutcome.appointmentConflict := by
  constructor <;> rfl

/-- Claim C1, amended: in the Booking Conflict Guard's conflict check only
appointments whose status is not `cancelled` and not `no_show` participate
(so `completed` appointments do participate): the outcome of
`check_appointment_conflict` is unchanged when the appointment list is
restricted to rows passing the `status NOT IN ('cancelled','no_show')`
filter, hence `cancelled`/`no_show` rows never cause a rejection. -/
theorem check_appointment_conflict_status_filter (pbid : Nat) (ps pe : Int)
    (pex : Option Nat) (appts : List DbAppointment) (blocked : List DbBlockedSlot) :
    check_appointment_conflict pbid ps pe pex appts blocked
    = check_appointment_conflict pbid ps pe pex
        (appts.filter fun a => sqlStatusParticipates a.status) blocked := by
  unfold check_appointment_conflict
  rw [sqlAny_filter]
  intro a ha
  simp [ha]

/-- Claim C7: the temporal refinements of `createAppointmentSchema` accept
only proposals whose end is strictly after their start, whose start is not
more than 60 seconds (60000 ms) in the past relative to the current time,
and whose duration lies between 1 and 1440 minutes inclusive. -/
theorem createAppointmentSchemaTiming_sound (s e d now : Int)
    (h : createAppointmentSchemaTiming s e d now = true) :
    s < e ∧ now - 60000 ≤ s ∧ 1 ≤ d ∧ d ≤ 1440 := by
  simp only [createAppointmentSchemaTiming, Bool.and_eq_true, decide_eq_true_eq] at h
  obtain ⟨⟨⟨⟨h1, h2⟩, h3⟩, h4⟩, h5⟩ := h
  exact ⟨h3, h5, h1, h2⟩

/-- Witness for C7: a concrete 60-minute proposal one hour after `now = 0`
is accepted and satisfies the three conditions. -/
theorem createAppointmentSchemaTiming_sound_witness :
    (0 : Int) < 3600000 ∧ (0 : Int) - 60000 ≤ 0 ∧ (1 : Int) ≤ 60 ∧ (60 : Int) ≤ 1440 :=
  createAppointmentSchemaTiming_sound 0 3600000 60 0 (by decide)

/-- Claim C8: for the concrete Monday 09:00-17:00 scenario (60-minute
slots, no breaks, no appointments or blocks, `now` 08:00 that Monday,
no minimum advance, 90-day maximum), `generateAvailableSlots` returns
exactly the eight slots 09:00-10:00 through 16:00-17:00 in order. -/
theorem generateAvailableSlots_concrete_monday :
    generateAvailableSlots mondayBusiness mondayDate [] [] mondayNow =
      some [⟨378000000, 381600000⟩, ⟨381600000, 385200000⟩, ⟨385200000, 388800000⟩,
            ⟨388800000, 392400000⟩, ⟨392400000, 396000000⟩, ⟨396000000, 399600000⟩,
            ⟨399600000, 403200000⟩, ⟨403200000, 406800000⟩] := by
  decide

/-- One-step unfolding of `slotLoop` with the `let` bindings expanded. -/
theorem slotLoop_succ (business : Business) (existingAppointments : List Appointment)
    (blockedSlots : List BlockedSlot) (now dayEndTime minBookingTime maxBookingTime : Int)
    (fuel : Nat) (currentSlotStart : Int) :
    slotLoop business existingAppointments blockedSlots now dayEndTime minBookingTime
      maxBookingTime (fuel + 1) currentSlotStart =
    if currentSlotStart < dayEndTime then
      if currentSlotStart + business.slot_duration_minutes * msPerMinute < dayEndTime ∨
          currentSlotStart + business.slot_duration_minutes * msPerMinute = dayEndTime then
        if passesAllFilters business existingAppointments blockedSlots now
            minBookingTime maxBookingTime currentSlotStart
            (currentSlotStart + business.slot_duration_minutes * msPerMinute) then
          { start := currentSlotStart,
            «end» := currentSlotStart + business.slot_duration_minutes * msPerMinute } ::
            slotLoop business existingAppointments blockedSlots now dayEndTime
              minBookingTime maxBookingTime fuel
              (currentSlotStart + business.slot_duration_minutes * msPerMinute)
        else
          slotLoop business existingAppointments blockedSlots now dayEndTime
            minBookingTime maxBookingTime fuel
            (currentSlotStart + business.slot_duration_minutes * msPerMinute)
      else
        slotLoop business existingAppointments blockedSlots now dayEndTime
          minBookingTime maxBookingTime fuel
          (currentSlotStart + business.slot_duration_minutes * msPerMinute)
    else [] := rfl

/-- Every slot emitted by `slotLoop` starts at or after the cursor, starts
before the day end, spans exactly one slot duration, fits within business
hours, passes all six filters, and keeps the cursor's position within its
minute (sub-minute remainder). -/
theorem mem_slotLoop (business : Business) (appts : List Appointment)
    (blocked : List BlockedSlot) (now dayEnd minB maxB : Int)
    (hdur : 1 ≤ business.slot_duration_minutes) :
    ∀ (fuel : Nat) (cur : Int) (s : AvailableSlot),
      s ∈ slotLoop business appts blocked now dayEnd minB maxB fuel cur →
      cur ≤ s.start ∧ s.start < dayEnd ∧
      s.«end» = s.start + business.slot_duration_minutes * msPerMinute ∧
      s.«end» ≤ dayEnd ∧
      passesAllFilters business appts blocked now minB maxB s.start s.«end» = true ∧
      s.start % msPerMinute = cur % msPerMinute := by
  intro fuel
  induction fuel with
  | zero =>
    intro cur s hs
    simp [slotLoop] at hs
  | succ fuel ih =>
    intro cur s hs
    rw [slotLoop_succ] at hs
    by_cases hcur : cur < dayEnd
    · rw [if_pos hcur] at hs
      have hnext : ∀ h : s ∈ slotLoop business appts blocked now dayEnd minB maxB fuel
          (cur + business.slot_duration_minutes * msPerMinute),
          cur ≤ s.start ∧ s.start < dayEnd ∧
          s.«end» = s.start + business.slot_duration_minutes * msPerMinute ∧
          s.«end» ≤ dayEnd ∧
          passesAllFilters business appts blocked now minB maxB s.start s.«end» = true ∧
          s.start % msPerMinute = cur % msPerMinute := by
        intro h
        obtain ⟨h1, h2, h3, h4, h5, h6⟩ := ih (cur + business.slot_duration_minutes * msPerMinute) s h
        refine ⟨?_, h2, h3, h4, h5, ?_⟩
        · simp only [msPerMinute] at h1 ⊢
          omega
        · simp only [msPerMinute] at h6 ⊢
          omega
      by_cases hfit : cur + business.slot_duration_minutes * msPerMinute < dayEnd ∨
          cur + business.slot_duration_minutes * msPerMinute = dayEnd
      · rw [if_pos hfit] at hs
        by_cases hpass : passesAllFilters business appts blocked now minB maxB cur
            (cur + business.slot_duration_minutes * msPerMinute) = true
        · rw [if_pos hpass] at hs
          rcases List.mem_cons.mp hs with heq | hrest
          · subst heq
            refine ⟨le_refl _, hcur, rfl, ?_, hpass, rfl⟩
            rcases hfit with h | h
            · exact le_of_lt h
            · exact le_of_eq h
          · exact hnext hrest
        · rw [if_neg hpass] at hs
          exact hnext hs
      · rw [if_neg hfit] at hs
        exact hnext hs
    · rw [if_neg hcur] at hs
      simp at hs

/-- For a positive slot duration the loop's result does not depend on the
fuel once the fuel exceeds the remaining millisecond span: the `while` loop
terminates and the fuelled embedding computes its limit. -/
theorem slotLoop_fuel_congr (business : Business) (appts : List Appointment)
    (blocked : List BlockedSlot) (now dayEnd minB maxB : Int)
    (hdur : 1 ≤ business.slot_duration_minutes) :
    ∀ (fuel₁ fuel₂ : Nat) (cur : Int),
      (dayEnd - cur).toNat < fuel₁ → (dayEnd - cur).toNat < fuel₂ →
      slotLoop business appts blocked now dayEnd minB maxB fuel₁ cur =
      slotLoop business appts blocked now dayEnd minB maxB fuel₂ cur := by
  intro fuel₁
  induction fuel₁ with
  | zero =>
    intro fuel₂ cur h1 h2
    omega
  | succ f ih =>
    intro fuel₂ cur h1 h2
    cases fuel₂ with
    | zero => omega
    | succ g =>
      rw [slotLoop_succ, slotLoop_succ]
      by_cases hcur : cur < dayEnd
      · have hrec := ih g (cur + business.slot_duration_minutes * msPerMinute) ?_ ?_
        · rw [if_pos hcur, if_pos hcur, hrec]
        · simp only [msPerMinute] at *
          omega
        · simp only [msPerMinute] at *
          omega
      · rw [if_neg hcur, if_neg hcur]

/-- Unpacking of `generateAvailableSlots = some slots` at a member slot:
the schedule's weekday gate passed, the duration is positive, and the slot
satisfies the full loop invariant of `mem_slotLoop` starting from the day
start. -/
theorem mem_generateAvailableSlots (business : Business) (date : Int)
    (appts : List Appointment) (blocked : List BlockedSlot) (now : Int)
    (slots : List AvailableSlot) (s : AvailableSlot)
    (hgen : generateAvailableSlots business date appts blocked now = some slots)
    (hs : s ∈ slots) :
    1 ≤ business.slot_duration_minutes ∧
    scheduleDayStart business date ≤ s.start ∧ s.start < scheduleDayEnd business date ∧
    s.«end» = s.start + business.slot_duration_minutes * msPerMinute ∧
    s.«end» ≤ scheduleDayEnd business date ∧
    passesAllFilters business appts blocked now (scheduleMinBooking business now)
      (scheduleMaxBooking business now) s.start s.«end» = true ∧
    s.start % msPerMinute = scheduleDayStart business date % msPerMinute := by
  unfold generateAvailableSlots at hgen
  by_cases hday : business.available_days.contains (getDayOfWeekName date) = true
  · rw [if_pos hday] at hgen
    by_cases hdiv : business.slot_duration_minutes ≤ 0 ∧
        scheduleDayStart business date < scheduleDayEnd business date
    · rw [if_pos hdiv] at hgen
      exact absurd hgen (by simp)
    · rw [if_neg hdiv] at hgen
      have hslots : slots = slotLoop business appts blocked now
          (scheduleDayEnd business date) (scheduleMinBooking business now)
          (scheduleMaxBooking business now)
          ((scheduleDayEnd business date - scheduleDayStart business date).toNat + 1)
          (scheduleDayStart business date) := by
        injection hgen with h
        exact h.symm
      by_cases hdur : 1 ≤ business.slot_duration_minutes
      · subst hslots
        have := mem_slotLoop business appts blocked now (scheduleDayEnd business date)
          (scheduleMinBooking business now) (scheduleMaxBooking business now) hdur
          ((scheduleDayEnd business date - scheduleDayStart business date).toNat + 1)
          (scheduleDayStart business date) s hs
        exact ⟨hdur, this.1, this.2.1, this.2.2.1, this.2.2.2.1, this.2.2.2.2.1, this.2.2.2.2.2⟩
      · have hle : scheduleDayEnd business date ≤ scheduleDayStart business date := by
          rcases not_and_or.mp hdiv with h | h
          · omega
          · omega
        rw [hslots, slotLoop_succ, if_neg (not_lt.mpr hle)] at hs
        simp at hs
  · rw [if_neg hday] at hgen
    have : slots = [] := by
      injection hgen with h
      exact h.symm
    subst this
    simp at hs

/-- `setTimeOfDay` anchors only through the civil day and the sub-minute
remainder of its base instant. -/
theorem setTimeOfDay_congr (date t : Int) (h m : Nat)
    (hday : dayIndex t = dayIndex date) (hmod : t % msPerMinute = date % msPerMinute) :
    setTimeOfDay t h m = setTimeOfDay date h m := by
  simp only [setTimeOfDay, hday, hmod]

/-- An instant lying between the schedule's day start and day end is on the
target date's civil day, provided the opening hours are well-formed "HH:mm"
values. -/
theorem dayIndex_eq_of_window (business : Business) (date t : Int)
    (hsh : business.available_hours.start.hour < 24)
    (hsm : business.available_hours.start.minute < 60)
    (heh : business.available_hours.«end».hour < 24)
    (hem : business.available_hours.«end».minute < 60)
    (h1 : scheduleDayStart business date ≤ t) (h2 : t < scheduleDayEnd business date) :
    dayIndex t = dayIndex date := by
  simp only [scheduleDayStart, scheduleDayEnd, setTimeOfDay, dayIndex, msPerDay,
    msPerHour, msPerMinute] at *
  omega

/-- The schedule's day start keeps the target date's sub-minute remainder. -/
theorem scheduleDayStart_mod (business : Business) (date : Int) :
    scheduleDayStart business date % msPerMinute = date % msPerMinute := by
  simp only [scheduleDayStart, setTimeOfDay, dayIndex, msPerDay, msPerHour, msPerMinute]
  omega

/-- Claim C9: for a strictly positive slot duration the candidate loop of
`generateAvailableSlots` terminates — the function yields a result
(`isSome`, never the divergence marker), and the fuelled loop is
independent of the fuel once it exceeds the remaining span, i.e. the
embedded `while` loop has a well-defined limit reached by the chosen
bound. -/
theorem generateAvailableSlots_total (business : Business) (date : Int)
    (appts : List Appointment) (blocked : List BlockedSlot) (now : Int)
    (hdur : 0 < business.slot_duration_minutes) :
    (generateAvailableSlots business date appts blocked now).isSome = true
    ∧ ∀ fuel₁ fuel₂ : Nat,
        (scheduleDayEnd business date - scheduleDayStart business date).toNat < fuel₁ →
        (scheduleDayEnd business date - scheduleDayStart business date).toNat < fuel₂ →
        slotLoop business appts blocked now (scheduleDayEnd business date)
          (scheduleMinBooking business now) (scheduleMaxBooking business now) fuel₁
          (scheduleDayStart business date) =
        slotLoop business appts blocked now (scheduleDayEnd business date)
          (scheduleMinBooking business now) (scheduleMaxBooking business now) fuel₂
          (scheduleDayStart business date) := by
  constructor
  · unfold generateAvailableSlots
    by_cases hday : business.available_days.contains (getDayOfWeekName date) = true
    · have hng : ¬(business.slot_duration_minutes ≤ 0 ∧
          scheduleDayStart business date < scheduleDayEnd business date) := by
        intro h
        omega
      rw [if_pos hday, if_neg hng]
      rfl
    · rw [if_neg hday]
      rfl
  · intro fuel₁ fuel₂ h1 h2
    exact slotLoop_fuel_congr business appts blocked now (scheduleDayEnd business date)
      (scheduleMinBooking business now) (scheduleMaxBooking business now) (by omega)
      fuel₁ fuel₂ (scheduleDayStart business date) h1 h2

/-- Witness for C9 at the concrete Monday scenario. -/
theorem generateAvailableSlots_total_witness :
    (generateAvailableSlots mondayBusiness mondayDate [] [] mondayNow).isSome = true
    ∧ ∀ fuel₁ fuel₂ : Nat,
        (scheduleDayEnd mondayBusiness mondayDate -
          scheduleDayStart mondayBusiness mondayDate).toNat < fuel₁ →
        (scheduleDayEnd mondayBusiness mondayDate -
          scheduleDayStart mondayBusiness mondayDate).toNat < fuel₂ →
        slotLoop mondayBusiness [] [] mondayNow (scheduleDayEnd mondayBusiness mondayDate)
          (scheduleMinBooking mondayBusiness mondayNow)
          (scheduleMaxBooking mondayBusiness mondayNow) fuel₁
          (scheduleDayStart mondayBusiness mondayDate) =
        slotLoop mondayBusiness [] [] mondayNow (scheduleDayEnd mondayBusiness mondayDate)
          (scheduleMinBooking mondayBusiness mondayNow)
          (scheduleMaxBooking mondayBusiness mondayNow) fuel₂
          (scheduleDayStart mondayBusiness mondayDate) :=
  generateAvailableSlots_total mondayBusiness mondayDate [] [] mondayNow (by decide)

/-- Claim C3: with a non-negative minimum advance, every returned slot ends
strictly after `now`, starts no earlier than `now` plus the minimum advance
in minutes, and starts no later than `now` plus the maximum advance taken
as whole days. -/
theorem generateAvailableSlots_window (business : Business) (date : Int)
    (appts : List Appointment) (blocked : List BlockedSlot) (now : Int)
    (hmin : 0 ≤ business.min_advance_booking_minutes)
    (slots : List AvailableSlot) (s : AvailableSlot)
    (hgen : generateAvailableSlots business date appts blocked now = some slots)
    (hs : s ∈ slots) :
    now < s.«end» ∧
    now + business.min_advance_booking_minutes * msPerMinute ≤ s.start ∧
    s.start ≤ now + business.max_advance_booking_days * msPerDay := by
  obtain ⟨hdur, hlo, hhi, hend, hfit, hpass, hmod⟩ :=
    mem_generateAvailableSlots business date appts blocked now slots s hgen hs
  simp only [passesAllFilters, Bool.and_eq_true, Bool.not_eq_true',
    decide_eq_false_iff_not, not_lt] at hpass
  obtain ⟨⟨⟨⟨⟨hp1, hp2⟩, hp3⟩, hp4⟩, hp5⟩, hp6⟩ := hpass
  simp only [scheduleMinBooking, scheduleMaxBooking, msPerMinute, msPerDay] at hp2 hp3
  simp only [msPerMinute] at hend
  simp only [msPerMinute, msPerDay]
  refine ⟨?_, ?_, ?_⟩ <;> omega

/-- Witness for C3: the 09:00-10:00 slot of the concrete Monday scenario
lies in the booking window. -/
theorem generateAvailableSlots_window_witness :
    mondayNow < (381600000 : Int)
    ∧ mondayNow + mondayBusiness.min_advance_booking_minutes * msPerMinute ≤ 378000000
    ∧ (378000000 : Int) ≤ mondayNow + mondayBusiness.max_advance_booking_days * msPerDay :=
  generateAvailableSlots_window mondayBusiness mondayDate [] [] mondayNow (by decide)
    [⟨378000000, 381600000⟩, ⟨381600000, 385200000⟩, ⟨385200000, 388800000⟩,
     ⟨388800000, 392400000⟩, ⟨392400000, 396000000⟩, ⟨396000000, 399600000⟩,
     ⟨399600000, 403200000⟩, ⟨403200000, 406800000⟩]
    ⟨378000000, 381600000⟩ (by decide) (by decide)

/-- Claim C2: every slot returned by `generateAvailableSlots` (for a
schedule with well-formed "HH:mm" opening hours) overlaps no break of the
schedule anchored to the target date, no input appointment whose status is
pending or confirmed, and no input blocked slot, under the shared overlap
predicate. -/
theorem generateAvailableSlots_sound (business : Business) (date : Int)
    (appts : List Appointment) (blocked : List BlockedSlot) (now : Int)
    (hsh : business.available_hours.start.hour < 24)
    (hsm : business.available_hours.start.minute < 60)
    (heh : business.available_hours.«end».hour < 24)
    (hem : business.available_hours.«end».minute < 60)
    (slots : List AvailableSlot) (s : AvailableSlot)
    (hgen : generateAvailableSlots business date appts blocked now = some slots)
    (hs : s ∈ slots) :
    (∀ br ∈ business.break_times,
      hasTimeOverlap s.start s.«end»
        (setTimeOfDay date br.start.hour br.start.minute)
        (setTimeOfDay date br.«end».hour br.«end».minute) = false)
    ∧ (∀ a ∈ appts,
        (a.status = AppointmentStatus.pending ∨ a.status = AppointmentStatus.confirmed) →
        hasTimeOverlap s.start s.«end» a.start_time a.end_time = false)
    ∧ (∀ bl ∈ blocked,
        hasTimeOverlap s.start s.«end» bl.start_time bl.end_time = false) := by
  obtain ⟨hdur, hlo, hhi, hend, hfit, hpass, hmod⟩ :=
    mem_generateAvailableSlots business date appts blocked now slots s hgen hs
  have hday : dayIndex s.start = dayIndex date :=
    dayIndex_eq_of_window business date s.start hsh hsm heh hem hlo hhi
  have hmod2 : s.start % msPerMinute = date % msPerMinute := by
    rw [hmod, scheduleDayStart_mod]
  simp only [passesAllFilters, Bool.and_eq_true, Bool.not_eq_true'] at hpass
  obtain ⟨⟨⟨⟨⟨hp1, hp2⟩, hp3⟩, hbreak⟩, happt⟩, hblock⟩ := hpass
  refine ⟨?_, ?_, ?_⟩
  · intro br hbr
    rw [isSlotDuringBreakTime, List.any_eq_false] at hbreak
    have h := hbreak br hbr
    rw [setTimeOfDay_congr date s.start br.start.hour br.start.minute hday hmod2,
      setTimeOfDay_congr date s.start br.«end».hour br.«end».minute hday hmod2] at h
    simpa using h
  · intro a ha hstat
    rw [hasConflictWithAppointments, List.any_eq_false] at happt
    have h := happt a ha
    have hact : isActiveStatus a.status = true := by
      rcases hstat with hh | hh <;> simp [isActiveStatus, hh]
    simp only [hact, if_true] at h
    simpa using h
  · intro bl hbl
    rw [hasConflictWithBlockedSlots, List.any_eq_false] at hblock
    simpa using hblock bl hbl

/-- Witness for C2: in the Monday scenario with a 12:00-13:00 break, a
confirmed 10:00-11:00 appointment and a 14:00-15:00 block, the returned
13:00-14:00 slot overlaps none of them. -/
theorem generateAvailableSlots_sound_witness :
    (∀ br ∈ breakBusiness.break_times,
      hasTimeOverlap 392400000 396000000
        (setTimeOfDay mondayDate br.start.hour br.start.minute)
        (setTimeOfDay mondayDate br.«end».hour br.«end».minute) = false)
    ∧ (∀ a ∈ sampleAppointments,
        (a.status = AppointmentStatus.pending ∨ a.status = AppointmentStatus.confirmed) →
        hasTimeOverlap 392400000 396000000 a.start_time a.end_time = false)
    ∧ (∀ bl ∈ sampleBlockedSlots,
        hasTimeOverlap 392400000 396000000 bl.start_time bl.end_time = false) :=
  generateAvailableSlots_sound breakBusiness mondayDate sampleAppointments
    sampleBlockedSlots mondayNow (by decide) (by decide) (by decide) (by decide)
    [⟨378000000, 381600000⟩, ⟨385200000, 388800000⟩, ⟨392400000, 396000000⟩,
     ⟨399600000, 403200000⟩, ⟨403200000, 406800000⟩]
    ⟨392400000, 396000000⟩ (by decide) (by decide)

/-- The defensive status re-check makes `hasConflictWithAppointments`
insensitive to non-active appointments. -/
theorem hasConflictWithAppointments_filter (slotStart slotEnd : Int) (l : List Appointment) :
    hasConflictWithAppointments slotStart slotEnd (l.filter fun a => isActiveStatus a.status)
    = hasConflictWithAppointments slotStart slotEnd l := by
  rw [hasConflictWithAppointments, hasConflictWithAppointments, List.any_filter]
  congr 1
  funext apt
  cases h : isActiveStatus apt.status <;> simp [h]

/-- `passesAllFilters` is insensitive to non-active appointments. -/
theorem passesAllFilters_filter (business : Business) (appts : List Appointment)
    (blocked : List BlockedSlot) (now minB maxB s e : Int) :
    passesAllFilters business (appts.filter fun a => isActiveStatus a.status) blocked
      now minB maxB s e
    = passesAllFilters business appts blocked now minB maxB s e := by
  simp only [passesAllFilters, hasConflictWithAppointments_filter]

/-- `slotLoop` is insensitive to non-active appointments. -/
theorem slotLoop_filter (business : Business) (appts : List Appointment)
    (blocked : List BlockedSlot) (now dayEnd minB maxB : Int) :
    ∀ (fuel : Nat) (cur : Int),
      slotLoop business (appts.filter fun a => isActiveStatus a.status) blocked now
        dayEnd minB maxB fuel cur
      = slotLoop business appts blocked now dayEnd minB maxB fuel cur := by
  intro fuel
  induction fuel with
  | zero => intro cur; rfl
  | succ f ih =>
    intro cur
    rw [slotLoop_succ, slotLoop_succ, ih, passesAllFilters_filter]

/-- Claim C10: `generateAvailableSlots` is insensitive to non-active
appointments in its input — its result is unchanged when the appointment
list is replaced by its sublist of pending/confirmed appointments. -/
theorem generateAvailableSlots_status_insensitive (business : Business) (date : Int)
    (appts : List Appointment) (blocked : List BlockedSlot) (now : Int) :
    generateAvailableSlots business date appts blocked now
    = generateAvailableSlots business date (appts.filter fun a => isActiveStatus a.status)
        blocked now := by
  unfold generateAvailableSlots
  rw [slotLoop_filter]

/-- Claim C6, counterexample: on a schedule whose opening hours are
malformed (start 17:00 at or after end 09:00) `generateAvailableSlots`
returns normally with the empty list — it signals no error of any kind
(its only outcomes are a slot list or the non-termination case, and the
non-termination case is not taken here). -/
theorem generateAvailableSlots_malformed_counterexample :
    generateAvailableSlots malformedBusiness mondayDate [] [] mondayNow = some [] := by
  decide

/-- Claim C6, amended: `generateAvailableSlots` performs no schedule
validation: with `available_hours.start` at or after `available_hours.end`
it silently returns the empty list, and with a non-positive
`slot_duration_minutes` (and a non-empty day window on an available day)
its loop never terminates; in neither case is an error signalled. -/
theorem generateAvailableSlots_malformed (business : Business) :
    (∀ (date : Int) (appts : List Appointment) (blocked : List BlockedSlot) (now : Int),
      business.available_hours.«end».hour * 60 + business.available_hours.«end».minute ≤
        business.available_hours.start.hour * 60 + business.available_hours.start.minute →
      generateAvailableSlots business date appts blocked now = some [])
    ∧ (∀ (date : Int) (appts : List Appointment) (blocked : List BlockedSlot) (now : Int),
      business.slot_duration_minutes ≤ 0 →
      business.available_days.contains (getDayOfWeekName date) = true →
      scheduleDayStart business date < scheduleDayEnd business date →
      generateAvailableSlots business date appts blocked now = none) := by
  constructor
  · intro date appts blocked now hle
    have hge : scheduleDayEnd business date ≤ scheduleDayStart business date := by
      simp only [scheduleDayStart, scheduleDayEnd, setTimeOfDay, msPerHour, msPerMinute]
      omega
    unfold generateAvailableSlots
    by_cases hday : business.available_days.contains (getDayOfWeekName date) = true
    · have hng : ¬(business.slot_duration_minutes ≤ 0 ∧
          scheduleDayStart business date < scheduleDayEnd business date) := by
        intro h
        omega
      rw [if_pos hday, if_neg hng]
      have hz : (scheduleDayEnd business date - scheduleDayStart business date).toNat = 0 := by
        omega
      rw [hz, slotLoop_succ, if_neg (not_lt.mpr hge)]
    · rw [if_neg hday]
  · intro date appts blocked now hdur hday hlt
    unfold generateAvailableSlots
    rw [if_pos hday, if_pos ⟨hdur, hlt⟩]

/-- Witness for C6 at concrete malformed schedules: reversed opening hours
silently give the empty list; a zero slot duration gives the divergence
marker. -/
theorem generateAvailableSlots_malformed_witness :
    generateAvailableSlots malformedBusiness (345600000 + 86400000) [] [] mondayNow = some []
    ∧ generateAvailableSlots zeroDurationBusiness mondayDate [] [] mondayNow = none :=
  ⟨(generateAvailableSlots_malformed malformedBusiness).1 (345600000 + 86400000) [] []
      mondayNow (by decide),
   (generateAvailableSlots_malformed zeroDurationBusiness).2 mondayDate [] [] mondayNow
      (by decide) (by decide) (by decide)⟩

/-- An UPDATE statement never produces a row violating the CHECK
constraint: either the new row passes it, or the statement is rejected and
the old row (assumed valid) is kept. -/
theorem updateAppointment_check (cur : ApptRow)
    (h : cancelled_at_only_when_cancelled cur = true)
    (ns : Option AppointmentStatus) (nca : Option (Option Int)) (now : Int) :
    cancelled_at_only_when_cancelled (updateAppointment cur ns nca now) = true := by
  unfold updateAppointment
  by_cases hc : cancelled_at_only_when_cancelled
      (if ns.isSome then
        set_cancelled_at now (some cur.status)
          { status := ns.getD cur.status, cancelled_at := nca.getD cur.cancelled_at }
      else { status := ns.getD cur.status, cancelled_at := nca.getD cur.cancelled_at }) = true
  · rw [if_pos hc]
    exact hc
  · rw [if_neg hc]
    exact h

/-- The CHECK constraint is preserved along any sequence of UPDATEs. -/
theorem runUpdates_check (r : ApptRow)
    (ops : List (Option AppointmentStatus × Option (Option Int) × Int))
    (h : cancelled_at_only_when_cancelled r = true) :
    cancelled_at_only_when_cancelled (runUpdates r ops) = true := by
  induction ops generalizing r with
  | nil => exact h
  | cons op ops ih =>
    rw [runUpdates, List.foldl_cons]
    exact ih _ (updateAppointment_check r h op.1 op.2.1 op.2.2)

/-- The CHECK constraint is exactly the iff between the presence of the
cancellation timestamp and the cancelled status. -/
theorem cancelled_at_check_iff (r : ApptRow) :
    cancelled_at_only_when_cancelled r = true ↔
      (r.cancelled_at ≠ none ↔ r.status = AppointmentStatus.cancelled) := by
  obtain ⟨st, ca⟩ := r
  cases ca <;> cases st <;> simp [cancelled_at_only_when_cancelled]

/-- Claim C5: every appointment row reachable through an INSERT and any
sequence of UPDATE statements has its cancellation timestamp present iff
its status is `cancelled`; moreover an UPDATE setting the status to
`cancelled` stamps `cancelled_at` with the current time, and an UPDATE
moving the status away from `cancelled` clears it. -/
theorem cancelled_at_invariant (p : ApptRow) (t0 : Int) (r : ApptRow)
    (ops : List (Option AppointmentStatus × Option (Option Int) × Int))
    (hins : insertAppointment p t0 = some r) :
    ((runUpdates r ops).cancelled_at ≠ none ↔
      (runUpdates r ops).status = AppointmentStatus.cancelled)
    ∧ (∀ (cur : ApptRow) (t : Int),
        cur.status ≠ AppointmentStatus.cancelled → cur.cancelled_at = none →
        updateAppointment cur (some AppointmentStatus.cancelled) none t
          = { status := AppointmentStatus.cancelled, cancelled_at := some t })
    ∧ (∀ (cur : ApptRow) (t : Int) (s : AppointmentStatus),
        cur.status = AppointmentStatus.cancelled → s ≠ AppointmentStatus.cancelled →
        updateAppointment cur (some s) none t = { status := s, cancelled_at := none }) := by
  refine ⟨?_, ?_, ?_⟩
  · have hr : cancelled_at_only_when_cancelled r = true := by
      unfold insertAppointment at hins
      by_cases hc : cancelled_at_only_when_cancelled (set_cancelled_at t0 none p) = true
      · rw [if_pos hc] at hins
        injection hins with h
        rw [← h]
        exact hc
      · rw [if_neg hc] at hins
        exact absurd hins (by simp)
    exact (cancelled_at_check_iff _).mp (runUpdates_check r ops hr)
  · intro cur t hst hca
    simp [updateAppointment, set_cancelled_at, cancelled_at_only_when_cancelled, hca]
  · intro cur t s hst hs
    simp [updateAppointment, set_cancelled_at, cancelled_at_only_when_cancelled, hst, hs]

/-- Witness for C5: a pending row inserted at time 0, then cancelled at
time 5 and reinstated at time 9, satisfies the invariant. -/
theorem cancelled_at_invariant_witness :
    ((runUpdates { status := AppointmentStatus.pending, cancelled_at := none }
        [(some AppointmentStatus.cancelled, none, 5),
         (some AppointmentStatus.confirmed, none, 9)]).cancelled_at ≠ none
      ↔ (runUpdates { status := AppointmentStatus.pending, cancelled_at := none }
        [(some AppointmentStatus.cancelled, none, 5),
         (some AppointmentStatus.confirmed, none, 9)]).status = AppointmentStatus.cancelled)
    ∧ (∀ (cur : ApptRow) (t : Int),
        cur.status ≠ AppointmentStatus.cancelled → cur.cancelled_at = none →
        updateAppointment cur (some AppointmentStatus.cancelled) none t
          = { status := AppointmentStatus.cancelled, cancelled_at := some t })
    ∧ (∀ (cur : ApptRow) (t : Int) (s : AppointmentStatus),
        cur.status = AppointmentStatus.cancelled → s ≠ AppointmentStatus.cancelled →
        updateAppointment cur (some s) none t = { status := s, cancelled_at := none }) :=
  cancelled_at_invariant { status := AppointmentStatus.pending, cancelled_at := none } 0
    { status := AppointmentStatus.pending, cancelled_at := none }
    [(some AppointmentStatus.cancelled, none, 5),
     (some AppointmentStatus.confirmed, none, 9)]
    (by decide)
